import Mathlib

/-!
Verification of the CoastMax coasting-distance estimator core.

The development shallowly embeds the core of the repository in Lean:

* `PhysicalParams` and `step_velocity` embed `src/params.py` and the
  velocity integrator of `src/physics.py`;
* `innerLoop`, `outerLoop` and `simulate_segment` embed the segment
  simulator of `src/physics.py` (the `while` loop is expressed with an
  explicit fuel argument; every non-terminal iteration advances the
  local distance by more than `1e-6`, hence `innerFuel` is enough fuel
  for the loop to run to completion);
* `densify_linestring`, `compute_segment_radii`,
  `build_profile_from_points` and `cut_linestring_at_length` embed
  `src/geo.py`;
* `process_edges` embeds the per-edge orchestration of
  `src/run_area.py`.

Machine floats are modelled by exact rationals.  The square root used
for curvature speed caps and for slope normalisation, the Euclidean
norm `math.hypot`, and the external `shapely.ops.substring` collaborator
are irrational-valued (or external) operations, so the embedding takes
them as explicit function parameters; every theorem below is quantified
over those parameters, constrained only where the source constrains the
corresponding value (for example a square root applied to a clamped
non-negative argument is assumed non-negative where a claim needs it).
Geometry objects are modelled by the minimal capability interface used
by the code: a coordinate sequence, a length and an interpolation map.
-/

/-- Physical configuration, embedding the dataclass in `src/params.py`. -/
structure PhysicalParams where
  mass : ℚ
  crr : ℚ
  cda : ℚ
  rho : ℚ
  mu_curve : ℚ
  g : ℚ
  dt : ℚ
  vmax_cap : ℚ

/-- Default field values of the `PhysicalParams` dataclass. -/
def defaultParams : PhysicalParams :=
  { mass := 85, crr := 1/250, cda := 3/10, rho := 49/40, mu_curve := 7/20,
    g := 980665/100000, dt := 1/10, vmax_cap := 35 }

/-- Parameter validity, as listed in the specification data model. -/
def PhysicalParams.Valid (p : PhysicalParams) : Prop :=
  0 < p.mass ∧ 0 ≤ p.crr ∧ 0 ≤ p.cda ∧ 0 < p.rho ∧ 0 ≤ p.mu_curve ∧
    0 < p.g ∧ 0 < p.dt ∧ 0 < p.vmax_cap

/-- Effective velocity cap used by `step_velocity` (line 7 of
`src/physics.py`): the global cap, lowered to the local cap when one is
supplied. -/
def effCap (p : PhysicalParams) (v_cap_local : Option ℚ) : ℚ :=
  match v_cap_local with
  | none => p.vmax_cap
  | some c => min p.vmax_cap c

/-- Embedding of `step_velocity` from `src/physics.py` (lines 3-10).
Returns the pair of the new velocity and the acceleration. -/
def step_velocity (v slope_sin slope_cos : ℚ) (p : PhysicalParams) (dt : ℚ)
    (v_cap_local : Option ℚ) : ℚ × ℚ :=
  let a := -p.g * slope_sin - p.crr * p.g * slope_cos
    - (p.rho * p.cda / (2 * p.mass)) * v * v
  let v_new := max 0 (v + a * dt)
  let cap := effCap p v_cap_local
  (if v_new > cap then cap else v_new, a)

/-- Parameter instance used by the counterexample to claim C1. -/
def pC1 : PhysicalParams :=
  { mass := 1, crr := 0, cda := 0, rho := 1, mu_curve := 0, g := 1, dt := 1,
    vmax_cap := 1 }

/-- State of the segment simulation loop in `simulate_segment`
(`src/physics.py`, line 13): current velocity, elapsed time, accumulated
distance and peak velocity seen. -/
structure SimState where
  v : ℚ
  t : ℚ
  sAcc : ℚ
  vmax : ℚ

/-- Local curvature speed cap for profile entry `idx` (`src/physics.py`,
lines 16-20): `sqrt(max 0 (mu_curve * g * r))` when a positive radius is
available at that index, otherwise no local cap.  On rationals every value
is finite, so the `math.isfinite` test of the source is always true. -/
def capAt (sqrtFn : ℚ → ℚ) (p : PhysicalParams)
    (radii : Option (List (Option ℚ))) (idx : ℕ) : Option ℚ :=
  match radii with
  | none => none
  | some l =>
    match l.getD idx none with
    | none => none
    | some r =>
      if 0 < r then some (sqrtFn (max 0 (p.mu_curve * p.g * r))) else none

/-- Fuel bound for the inner `while` loop of `simulate_segment`: every
iteration that does not terminate the loop advances `s_local` by more than
`1e-6`, so the loop runs fewer than `ds * 1e6 + 2` times. -/
def innerFuel (ds : ℚ) : ℕ := (⌈ds * 1000000⌉).toNat + 2

/-- Embedding of the inner `while` loop of `simulate_segment`
(`src/physics.py`, lines 22-32), one profile entry at a time.  The returned
boolean records whether the loop ended through the stall branch
(`ds_step <= 1e-6`, line 25). -/
def innerLoop (p : PhysicalParams) (cap : Option ℚ)
    (ds slope_sin slope_cos : ℚ) :
    ℕ → ℚ → SimState → SimState × Bool
  | 0, _, st => (st, false)
  | fuel + 1, s_local, st =>
    if s_local < ds ∧ 0 < st.v then
      let v' := (step_velocity st.v slope_sin slope_cos p p.dt cap).1
      let ds_step := v' * p.dt
      if ds_step ≤ 1/1000000 then ({ st with v := 0 }, true)
      else
        let s_local' := s_local + ds_step
        let st' : SimState :=
          { v := v', t := st.t + p.dt, sAcc := st.sAcc + ds_step,
            vmax := max st.vmax v' }
        if ds < s_local' then
          let surplus := s_local' - ds
          innerLoop p cap ds slope_sin slope_cos fuel ds
            { st' with
              t := st'.t - surplus / max v' (1/1000000),
              sAcc := st'.sAcc - surplus }
        else
          innerLoop p cap ds slope_sin slope_cos fuel s_local' st'
    else (st, false)

/-- Embedding of the `for` loop of `simulate_segment` (`src/physics.py`,
lines 14-33): process the profile entries in order, stopping as soon as the
velocity is not positive after an entry. -/
def outerLoop (sqrtFn : ℚ → ℚ) (p : PhysicalParams)
    (radii : Option (List (Option ℚ))) :
    List (ℚ × ℚ × ℚ) → ℕ → SimState → SimState
  | [], _, st => st
  | e :: rest, idx, st =>
    let r := innerLoop p (capAt sqrtFn p radii idx) e.1 e.2.1 e.2.2
      (innerFuel e.1) 0 st
    if r.1.v ≤ 0 then r.1 else outerLoop sqrtFn p radii rest (idx + 1) r.1

/-- Embedding of `simulate_segment` from `src/physics.py` (lines 12-34).
Returns `(s_acc, t, v, vmax_seen)`. -/
def simulate_segment (sqrtFn : ℚ → ℚ) (profile : List (ℚ × ℚ × ℚ)) (v0 : ℚ)
    (p : PhysicalParams) (radii : Option (List (Option ℚ))) :
    ℚ × ℚ × ℚ × ℚ :=
  let st := outerLoop sqrtFn p radii profile 0
    { v := v0, t := 0, sAcc := 0, vmax := v0 }
  (st.sAcc, st.t, st.v, st.vmax)

/-- Parameter instance used by the simulation witnesses: unit mass, strong
rolling resistance, no drag, unit gravity, one-second timestep, cap 10. -/
def pW : PhysicalParams :=
  { mass := 1, crr := 1, cda := 0, rho := 1, mu_curve := 0, g := 1, dt := 1,
    vmax_cap := 10 }

/-- Square-root stand-in used by the simulation witnesses. -/
def sqW : ℚ → ℚ := fun _ => 0

/-- Simulation state used by the C5 witness. -/
def stW : SimState := { v := 1/2, t := 0, sAcc := 0, vmax := 1/2 }

/-- Geometry object, modelling the duck-typed line geometry used by the
source through its minimal capability interface: a coordinate sequence, a
length and an arc-length interpolation map (the latter two are computed by
the external geometry library in the source). -/
structure LineString where
  coords : List (ℚ × ℚ)
  length : ℚ
  interpolate : ℚ → ℚ × ℚ

/-- Embedding of `np.arange(0.0, stop, step)` for a positive step: the
values `i * step` for `0 ≤ i < ⌈stop / step⌉`. -/
def arange (stop step : ℚ) : List ℚ :=
  (List.range (⌈stop / step⌉).toNat).map fun i : ℕ => (i : ℚ) * step

/-- Embedding of `densify_linestring` from `src/geo.py` (lines 11-30).
The `isinstance` guard of the source is enforced by typing. -/
def densify_linestring (line : LineString) (step_m : ℚ) : List (ℚ × ℚ) :=
  if line.length ≤ 0 then
    match line.coords with
    | [] => []
    | c :: rest => [c, rest.getLastD c]
  else
    let dists := arange (max 0 line.length) (max step_m (1/1000000))
    let dists2 :=
      match dists.getLast? with
      | none => dists ++ [line.length]
      | some dl => if dl < line.length then dists ++ [line.length] else dists
    dists2.map line.interpolate

/-- Embedding of `_triangle_area_doubled` from `src/geo.py` (lines 33-34). -/
def triangle_area_doubled (ax ay bx b_y cx cy : ℚ) : ℚ :=
  |(bx - ax) * (cy - ay) - (b_y - ay) * (cx - ax)|

/-- Embedding of `compute_segment_radii` from `src/geo.py` (lines 37-67).
The Euclidean norm `math.hypot` is taken as a function parameter. -/
def compute_segment_radii (hypot : ℚ → ℚ → ℚ) (points : List (ℚ × ℚ)) :
    List (Option ℚ) :=
  let n := points.length
  if n < 3 then List.replicate (n - 1) none
  else
    (List.range (n - 1)).map fun i =>
      if i = 0 ∨ i = n - 2 then none
      else
        let a := points.getD (i - 1) (0, 0)
        let b := points.getD i (0, 0)
        let c := points.getD (i + 1) (0, 0)
        let ab := hypot (b.1 - a.1) (b.2 - a.2)
        let bc := hypot (c.1 - b.1) (c.2 - b.2)
        let ac := hypot (c.1 - a.1) (c.2 - a.2)
        let area2 := triangle_area_doubled a.1 a.2 b.1 b.2 c.1 c.2
        if area2 ≤ 1/1000000 ∨ ab ≤ 1/1000000 ∨ bc ≤ 1/1000000 ∨
            ac ≤ 1/1000000 then none
        else some (ab * bc * ac / (2 * area2))

/-- First valid elevation value in order, mirroring
`np.flatnonzero(valid)[0]` lookups in `build_profile_from_points`. -/
def firstValid : List (Option ℚ) → Option ℚ
  | [] => none
  | some v :: _ => some v
  | none :: rest => firstValid rest

/-- Last valid elevation value, mirroring `np.flatnonzero(valid)[-1]`
lookups in `build_profile_from_points`. -/
def lastValid (z : List (Option ℚ)) : Option ℚ := firstValid z.reverse

/-- Nearest valid elevation at or below index `i`. -/
def prevValid (z : List (Option ℚ)) : ℕ → Option (ℕ × ℚ)
  | 0 =>
    match z.getD 0 none with
    | some v => some (0, v)
    | none => none
  | j + 1 =>
    match z.getD (j + 1) none with
    | some v => some (j + 1, v)
    | none => prevValid z j

/-- Fueled upward search for the nearest valid elevation at or above an
index. -/
def nextValidAux (z : List (Option ℚ)) : ℕ → ℕ → Option (ℕ × ℚ)
  | 0, _ => none
  | f + 1, i =>
    match z.getD i none with
    | some v => some (i, v)
    | none => nextValidAux z f (i + 1)

/-- Nearest valid elevation at or above index `i`. -/
def nextValid (z : List (Option ℚ)) (i : ℕ) : Option (ℕ × ℚ) :=
  nextValidAux z (z.length - i) i

/-- Embedding of `np.interp(idx, idx[valid], z[valid])` with point index as
the interpolation coordinate (`src/geo.py`, lines 102-104): valid entries
are kept, gaps are linearly interpolated between the bracketing valid
entries, and a missing bracket falls back to the nearest valid value. -/
def interpIndex (z : List (Option ℚ)) : List ℚ :=
  (List.range z.length).map fun i =>
    match z.getD i none with
    | some v => v
    | none =>
      match prevValid z i, nextValid z i with
      | some jv, some kv =>
        jv.2 + (kv.2 - jv.2) * ((i : ℚ) - jv.1) / ((kv.1 : ℚ) - jv.1)
      | some jv, none => jv.2
      | none, some kv => kv.2
      | none, none => 0

/-- Embedding of the endpoint repair of `build_profile_from_points`
(`src/geo.py`, lines 88-101): a missing first or last elevation is replaced
by the first, respectively last, valid value of the original sequence (the
zero fallback of the source is dead code when some entry is valid). -/
def fixEnds (z : List (Option ℚ)) : List (Option ℚ) :=
  let z1 :=
    match z.getD 0 none with
    | none => z.set 0 (some ((firstValid z).getD 0))
    | some _ => z
  match z1.getD (z1.length - 1) none with
  | none => z1.set (z1.length - 1) (some ((lastValid z).getD 0))
  | some _ => z1

/-- Embedding of the elevation repair of `build_profile_from_points`
(`src/geo.py`, lines 82-104).  On rationals every value is finite, so the
`np.isfinite` filter of the source reduces to the missing-value test. -/
def fixupElevations (z : List (Option ℚ)) : List ℚ :=
  if z.all fun e => e.isNone then List.replicate z.length 0
  else interpIndex (fixEnds z)

/-- Embedding of `build_profile_from_points` from `src/geo.py`
(lines 70-122).  The `ValueError` raise is modelled by `Except.error`; the
square root in the slope normalisation is taken as a function parameter. -/
def build_profile_from_points (hypot : ℚ → ℚ → ℚ) (sqrtFn : ℚ → ℚ)
    (points : List (ℚ × ℚ)) (elevations : List (Option ℚ)) :
    Except String (List (ℚ × ℚ × ℚ)) :=
  if points.length ≠ elevations.length then
    Except.error "points and elevations must have the same length"
  else if points.length < 2 then Except.ok []
  else
    let z := fixupElevations elevations
    Except.ok ((List.range (points.length - 1)).map fun i =>
      let pa := points.getD i (0, 0)
      let pb := points.getD (i + 1) (0, 0)
      let ds := hypot (pb.1 - pa.1) (pb.2 - pa.2)
      if ds ≤ 1/1000000000 then (0, 0, 1)
      else
        let dz := z.getD (i + 1) 0 - z.getD i 0
        let grade := dz / ds
        let denom := sqrtFn (1 + grade * grade)
        (ds, grade / denom, 1 / denom))

/-- Embedding of `cut_linestring_at_length` from `src/geo.py`
(lines 160-199).  The external `shapely.ops.substring` collaborator is taken
as a function parameter; since it is total here, the `except` fallback of
the source (lines 176-199) is unreachable and is not modelled.  On an empty
coordinate sequence the source would raise `IndexError`; the embedding
totalises that corner with a default start point, and the theorems about
this function assume a non-empty coordinate sequence. -/
def cut_linestring_at_length (substringFn : LineString → ℚ → ℚ → LineString)
    (line : LineString) (length0 : ℚ) : LineString :=
  let len := max 0 length0
  let total := line.length
  let endAt := min len total
  if endAt ≤ 0 then
    let start := line.coords.getD 0 (0, 0)
    { coords := [start, start], length := 0, interpolate := fun _ => start }
  else if endAt ≥ total then line
  else substringFn line 0 endAt

/-- Embedding of `build_profile_and_radii` from `src/geo.py`
(lines 202-208).  The elevation sequence sampled from the DEM by
`sample_dem_points` is passed in by the caller. -/
def build_profile_and_radii (hypot : ℚ → ℚ → ℚ) (sqrtFn : ℚ → ℚ)
    (line : LineString) (elevations : List (Option ℚ)) (step_m : ℚ) :
    Except String (List (ℚ × ℚ × ℚ) × List (Option ℚ)) :=
  let pts := densify_linestring line step_m
  match build_profile_from_points hypot sqrtFn pts elevations with
  | Except.error msg => Except.error msg
  | Except.ok profile => Except.ok (profile, compute_segment_radii hypot pts)

/-- Network edge as consumed by `process_edges` in `src/run_area.py`: stable
identifiers, an optional projected geometry, and the elevations that the DEM
collaborator returns for the densified points of the edge (`none` models a
sampling failure, the exception path of lines 41-45). -/
structure Edge where
  u : ℕ
  v : ℕ
  key : ℕ
  geometry : Option LineString
  elevations : Option (List (Option ℚ))

/-- Result record emitted per surviving edge by `process_edges`
(`src/run_area.py`, lines 54-64). -/
structure EdgeResult where
  u : ℕ
  v : ℕ
  key : ℕ
  length_m : ℚ
  coast_distance_m : ℚ
  coast_time_s : ℚ
  v_out_mps : ℚ
  v_max_mps : ℚ
  geometry : LineString

/-- Per-edge profile and radii, wrapping the `try` block of `process_edges`
(`src/run_area.py`, lines 41-45): a missing elevation batch models the
exception raised by DEM sampling. -/
def edge_profile_radii (hypot : ℚ → ℚ → ℚ) (sqrtFn : ℚ → ℚ)
    (geom : LineString) (elevations : Option (List (Option ℚ)))
    (step_m : ℚ) : Except String (List (ℚ × ℚ × ℚ) × List (Option ℚ)) :=
  match elevations with
  | none => Except.error "DEM sampling failed"
  | some elevs => build_profile_and_radii hypot sqrtFn geom elevs step_m

/-- Body of the edge loop of `process_edges` (`src/run_area.py`,
lines 34-64) for one edge; `none` means the edge is skipped. -/
def process_edge (sqrtFn : ℚ → ℚ) (hypot : ℚ → ℚ → ℚ)
    (substringFn : LineString → ℚ → ℚ → LineString)
    (step_m v0 : ℚ) (p : PhysicalParams) (edge : Edge) : Option EdgeResult :=
  match edge.geometry with
  | none => none
  | some geom =>
    let length_m := geom.length
    if ¬ (1 < length_m) then none
    else
      match edge_profile_radii hypot sqrtFn geom edge.elevations step_m with
      | Except.error _ => none
      | Except.ok pr =>
        if pr.1 = [] then none
        else
          let r := simulate_segment sqrtFn pr.1 v0 p (some pr.2)
          let traveled := min r.1 length_m
          let geom_trunc := cut_linestring_at_length substringFn geom traveled
          some
            { u := edge.u
              v := edge.v
              key := edge.key
              length_m := length_m
              coast_distance_m := traveled
              coast_time_s := r.2.1
              v_out_mps := r.2.2.1
              v_max_mps := r.2.2.2
              geometry := geom_trunc }

/-- Embedding of `process_edges` from `src/run_area.py` (lines 31-65). -/
def process_edges (sqrtFn : ℚ → ℚ) (hypot : ℚ → ℚ → ℚ)
    (substringFn : LineString → ℚ → ℚ → LineString)
    (edges : List Edge) (step_m v0 : ℚ) (p : PhysicalParams) :
    List EdgeResult :=
  edges.filterMap (process_edge sqrtFn hypot substringFn step_m v0 p)

/-- Substring collaborator instance used by witnesses: returns the line
unchanged. -/
def subW : LineString → ℚ → ℚ → LineString := fun l _ _ => l

/-- Zero-length line with three coincident coordinates, used by the
counterexample to claim C9. -/
def lineZ : LineString :=
  { coords := [(0, 0), (0, 0), (0, 0)], length := 0,
    interpolate := fun _ => (0, 0) }

/-- Line instance used by witnesses: a straight 2 m segment. -/
def lineW : LineString :=
  { coords := [(0, 0), (2, 0)], length := 2, interpolate := fun d => (d, 0) }

/-- Euclidean-norm stand-in used by witnesses. -/
def hypW : ℚ → ℚ → ℚ := fun _ _ => 0

/-- Edge instance used by the C3 witness. -/
def edgeW : Edge :=
  { u := 0, v := 1, key := 0, geometry := some lineW,
    elevations := some [some 0, some 0] }

/-- Default result record used as the `headD` fallback in the C3 witness. -/
def resDefault : EdgeResult :=
  { u := 0, v := 0, key := 0, length_m := 0, coast_distance_m := 0,
    coast_time_s := 0, v_out_mps := 0, v_max_mps := 0,
    geometry := { coords := [], length := 0, interpolate := fun _ => (0, 0) } }

/-- Point list used by the C8 witness. -/
def pts8 : List (ℚ × ℚ) := [(0, 0), (1, 0), (1, 1), (2, 1)]

/-- Helper: the new velocity computed by `step_velocity` never exceeds the
effective cap. -/
lemma step_velocity_le_effCap (v slope_sin slope_cos : ℚ) (p : PhysicalParams)
    (dt : ℚ) (v_cap_local : Option ℚ) :
    (step_velocity v slope_sin slope_cos p dt v_cap_local).1 ≤
      effCap p v_cap_local := by
  unfold step_velocity
  dsimp only
  split
  · exact le_refl _
  · next h => exact le_of_not_lt h

/-- Helper: with a non-negative effective cap, the new velocity computed by
`step_velocity` is non-negative. -/
lemma step_velocity_nonneg (v slope_sin slope_cos : ℚ) (p : PhysicalParams)
    (dt : ℚ) (v_cap_local : Option ℚ)
    (hcap : 0 ≤ effCap p v_cap_local) :
    0 ≤ (step_velocity v slope_sin slope_cos p dt v_cap_local).1 := by
  unfold step_velocity
  dsimp only
  split
  · exact hcap
  · exact le_max_left 0 _

/-- Helper: an effective cap built from a positive global cap and a
non-negative optional local cap is non-negative. -/
lemma effCap_nonneg (p : PhysicalParams) (v_cap_local : Option ℚ)
    (hvmax : 0 < p.vmax_cap)
    (hloc : ∀ c, v_cap_local = some c → 0 ≤ c) :
    0 ≤ effCap p v_cap_local := by
  cases v_cap_local with
  | none => exact le_of_lt hvmax
  | some c => exact le_min (le_of_lt hvmax) (hloc c rfl)

/-- Helper: the inner loop started at local distance `s_local ≤ ds` adds at
most `ds - s_local` to the accumulated distance. -/
lemma innerLoop_sAcc_le (p : PhysicalParams) (cap : Option ℚ)
    (ds slope_sin slope_cos : ℚ) :
    ∀ fuel s_local st, s_local ≤ ds →
      (innerLoop p cap ds slope_sin slope_cos fuel s_local st).1.sAcc ≤
        st.sAcc + (ds - s_local) := by
  intro fuel
  induction fuel with
  | zero =>
    intro s_local st h
    simp only [innerLoop]
    linarith
  | succ n ih =>
    intro s_local st h
    simp only [innerLoop]
    split_ifs with h1 h2 h3
    · simp only
      linarith
    · have := ih ds
        { v := (step_velocity st.v slope_sin slope_cos p p.dt cap).1,
          t := st.t + p.dt
            - (s_local + (step_velocity st.v slope_sin slope_cos p p.dt cap).1 * p.dt - ds)
              / max ((step_velocity st.v slope_sin slope_cos p p.dt cap).1) (1/1000000),
          sAcc := st.sAcc + (step_velocity st.v slope_sin slope_cos p p.dt cap).1 * p.dt
            - (s_local + (step_velocity st.v slope_sin slope_cos p p.dt cap).1 * p.dt - ds),
          vmax := max st.vmax ((step_velocity st.v slope_sin slope_cos p p.dt cap).1) }
        (le_refl ds)
      simp only at this ⊢
      linarith
    · have := ih (s_local + (step_velocity st.v slope_sin slope_cos p p.dt cap).1 * p.dt)
        { v := (step_velocity st.v slope_sin slope_cos p p.dt cap).1,
          t := st.t + p.dt,
          sAcc := st.sAcc + (step_velocity st.v slope_sin slope_cos p p.dt cap).1 * p.dt,
          vmax := max st.vmax ((step_velocity st.v slope_sin slope_cos p p.dt cap).1) }
        (le_of_not_lt h3)
      simp only at this ⊢
      linarith
    · simp only
      linarith

/-- Helper: projection of validity. -/
lemma PhysicalParams.Valid.dt_pos {p : PhysicalParams} (hp : p.Valid) :
    0 < p.dt := hp.2.2.2.2.2.2.1

/-- Helper: projection of validity. -/
lemma PhysicalParams.Valid.vmax_pos {p : PhysicalParams} (hp : p.Valid) :
    0 < p.vmax_cap := hp.2.2.2.2.2.2.2

/-- Helper: any supplied curvature cap is `sqrtFn` of a clamped non-negative
argument, so with a non-negative square root and a positive global cap the
effective cap stays non-negative. -/
lemma capAt_effCap_nonneg (sqrtFn : ℚ → ℚ) (p : PhysicalParams)
    (radii : Option (List (Option ℚ))) (idx : ℕ) (hvmax : 0 < p.vmax_cap)
    (hsqrt : ∀ x, 0 ≤ x → 0 ≤ sqrtFn x) :
    0 ≤ effCap p (capAt sqrtFn p radii idx) := by
  apply effCap_nonneg _ _ hvmax
  intro c hc
  unfold capAt at hc
  cases radii with
  | none => exact absurd hc (by simp)
  | some l =>
    dsimp only at hc
    cases hl : l.getD idx none with
    | none => rw [hl] at hc; exact absurd hc (by simp)
    | some r =>
      rw [hl] at hc
      dsimp only at hc
      by_cases hr : 0 < r
      · rw [if_pos hr] at hc
        injection hc with hc
        rw [← hc]
        exact hsqrt _ (le_max_left 0 _)
      · rw [if_neg hr] at hc
        exact absurd hc (by simp)

/-- Helper: along the inner loop the accumulated distance, elapsed time and
peak velocity never decrease, and the velocity stays non-negative, provided
the timestep is positive and the effective cap is non-negative. -/
lemma innerLoop_bounds (p : PhysicalParams) (cap : Option ℚ)
    (ds slope_sin slope_cos : ℚ) (hdt : 0 < p.dt)
    (hcap : 0 ≤ effCap p cap) :
    ∀ fuel s_local st, 0 ≤ st.v →
      st.sAcc ≤ (innerLoop p cap ds slope_sin slope_cos fuel s_local st).1.sAcc ∧
      st.t ≤ (innerLoop p cap ds slope_sin slope_cos fuel s_local st).1.t ∧
      0 ≤ (innerLoop p cap ds slope_sin slope_cos fuel s_local st).1.v ∧
      st.vmax ≤ (innerLoop p cap ds slope_sin slope_cos fuel s_local st).1.vmax := by
  intro fuel
  induction fuel with
  | zero =>
    intro s_local st hv
    simp only [innerLoop]
    exact ⟨le_refl _, le_refl _, hv, le_refl _⟩
  | succ n ih =>
    intro s_local st hv
    simp only [innerLoop]
    split_ifs with h1 h2 h3
    · exact ⟨le_refl _, le_refl _, le_refl _, le_refl _⟩
    · have hv' : 0 ≤ (step_velocity st.v slope_sin slope_cos p p.dt cap).1 :=
        step_velocity_nonneg st.v slope_sin slope_cos p p.dt cap hcap
      have hds : 1/1000000 <
          (step_velocity st.v slope_sin slope_cos p p.dt cap).1 * p.dt :=
        lt_of_not_le h2
      have hM : (0:ℚ) < max ((step_velocity st.v slope_sin slope_cos p p.dt cap).1)
          (1/1000000) :=
        lt_of_lt_of_le (by norm_num) (le_max_right _ _)
      have hdiv : (s_local + (step_velocity st.v slope_sin slope_cos p p.dt cap).1 * p.dt - ds) /
          max ((step_velocity st.v slope_sin slope_cos p p.dt cap).1) (1/1000000) ≤ p.dt := by
        rw [div_le_iff₀ hM]
        have hstep : (step_velocity st.v slope_sin slope_cos p p.dt cap).1 * p.dt ≤
            max ((step_velocity st.v slope_sin slope_cos p p.dt cap).1) (1/1000000) * p.dt :=
          mul_le_mul_of_nonneg_right (le_max_left _ _) (le_of_lt hdt)
        have hsur : s_local + (step_velocity st.v slope_sin slope_cos p p.dt cap).1 * p.dt - ds ≤
            (step_velocity st.v slope_sin slope_cos p p.dt cap).1 * p.dt := by
          linarith [h1.1]
        calc s_local + (step_velocity st.v slope_sin slope_cos p p.dt cap).1 * p.dt - ds
            ≤ (step_velocity st.v slope_sin slope_cos p p.dt cap).1 * p.dt := hsur
          _ ≤ max ((step_velocity st.v slope_sin slope_cos p p.dt cap).1) (1/1000000) * p.dt := hstep
          _ = p.dt * max ((step_velocity st.v slope_sin slope_cos p p.dt cap).1) (1/1000000) :=
            mul_comm _ _
      obtain ⟨ih1, ih2, ih3, ih4⟩ := ih ds
        { v := (step_velocity st.v slope_sin slope_cos p p.dt cap).1,
          t := st.t + p.dt
            - (s_local + (step_velocity st.v slope_sin slope_cos p p.dt cap).1 * p.dt - ds)
              / max ((step_velocity st.v slope_sin slope_cos p p.dt cap).1) (1/1000000),
          sAcc := st.sAcc + (step_velocity st.v slope_sin slope_cos p p.dt cap).1 * p.dt
            - (s_local + (step_velocity st.v slope_sin slope_cos p p.dt cap).1 * p.dt - ds),
          vmax := max st.vmax ((step_velocity st.v slope_sin slope_cos p p.dt cap).1) }
        hv'
      simp only at ih1 ih2 ih3 ih4 ⊢
      refine ⟨?_, ?_, ih3, ?_⟩
      · have h0 : st.sAcc ≤ st.sAcc + (step_velocity st.v slope_sin slope_cos p p.dt cap).1 * p.dt
            - (s_local + (step_velocity st.v slope_sin slope_cos p p.dt cap).1 * p.dt - ds) := by
          linarith [h1.1]
        linarith
      · have h0 : st.t ≤ st.t + p.dt
            - (s_local + (step_velocity st.v slope_sin slope_cos p p.dt cap).1 * p.dt - ds)
              / max ((step_velocity st.v slope_sin slope_cos p p.dt cap).1) (1/1000000) := by
          linarith [hdiv]
        linarith
      · have h0 : st.vmax ≤ max st.vmax ((step_velocity st.v slope_sin slope_cos p p.dt cap).1) :=
          le_max_left _ _
        linarith
    · have hv' : 0 ≤ (step_velocity st.v slope_sin slope_cos p p.dt cap).1 :=
        step_velocity_nonneg st.v slope_sin slope_cos p p.dt cap hcap
      obtain ⟨ih1, ih2, ih3, ih4⟩ := ih
        (s_local + (step_velocity st.v slope_sin slope_cos p p.dt cap).1 * p.dt)
        { v := (step_velocity st.v slope_sin slope_cos p p.dt cap).1,
          t := st.t + p.dt,
          sAcc := st.sAcc + (step_velocity st.v slope_sin slope_cos p p.dt cap).1 * p.dt,
          vmax := max st.vmax ((step_velocity st.v slope_sin slope_cos p p.dt cap).1) }
        hv'
      simp only at ih1 ih2 ih3 ih4 ⊢
      have hds : 1/1000000 <
          (step_velocity st.v slope_sin slope_cos p p.dt cap).1 * p.dt :=
        lt_of_not_le h2
      refine ⟨?_, ?_, ih3, ?_⟩
      · linarith
      · linarith
      · have h0 : st.vmax ≤ max st.vmax ((step_velocity st.v slope_sin slope_cos p p.dt cap).1) :=
          le_max_left _ _
        linarith
    · exact ⟨le_refl _, le_refl _, hv, le_refl _⟩

/-- Helper: when the inner loop reports a stall, the velocity in the returned
state has been forced to zero. -/
lemma innerLoop_stalled (p : PhysicalParams) (cap : Option ℚ)
    (ds slope_sin slope_cos : ℚ) :
    ∀ fuel s_local st,
      (innerLoop p cap ds slope_sin slope_cos fuel s_local st).2 = true →
      (innerLoop p cap ds slope_sin slope_cos fuel s_local st).1.v = 0 := by
  intro fuel
  induction fuel with
  | zero =>
    intro s_local st h
    exact absurd h (by simp [innerLoop])
  | succ n ih =>
    intro s_local st h
    simp only [innerLoop] at h ⊢
    split_ifs at h ⊢ with h1 h2 h3
    · rfl
    · exact ih _ _ h
    · exact ih _ _ h

/-- Helper: the outer loop adds at most the sum of the (non-negative) entry
lengths to the accumulated distance. -/
lemma outerLoop_sAcc_le (sqrtFn : ℚ → ℚ) (p : PhysicalParams)
    (radii : Option (List (Option ℚ))) :
    ∀ profile idx st, (∀ e ∈ profile, 0 ≤ e.1) →
      (outerLoop sqrtFn p radii profile idx st).sAcc ≤
        st.sAcc + (profile.map fun e => e.1).sum := by
  intro profile
  induction profile with
  | nil =>
    intro idx st h
    simp [outerLoop]
  | cons e rest ih =>
    intro idx st h
    have hds : 0 ≤ e.1 := h e (List.mem_cons_self e rest)
    have hrest : ∀ x ∈ rest, 0 ≤ x.1 := fun x hx => h x (List.mem_cons_of_mem e hx)
    have hsum : 0 ≤ (rest.map fun x => x.1).sum := by
      apply List.sum_nonneg
      intro x hx
      obtain ⟨a, ha, rfl⟩ := List.mem_map.mp hx
      exact hrest a ha
    have hinner := innerLoop_sAcc_le p (capAt sqrtFn p radii idx) e.1 e.2.1 e.2.2
      (innerFuel e.1) 0 st hds
    simp only [outerLoop]
    split_ifs with hv
    · simp only [List.map_cons, List.sum_cons]
      linarith
    · have hrec := ih (idx + 1)
        (innerLoop p (capAt sqrtFn p radii idx) e.1 e.2.1 e.2.2 (innerFuel e.1) 0 st).1
        hrest
      simp only [List.map_cons, List.sum_cons]
      linarith

/-- Helper: along the outer loop the accumulated distance, elapsed time and
peak velocity never decrease, and the velocity stays non-negative. -/
lemma outerLoop_bounds (sqrtFn : ℚ → ℚ) (p : PhysicalParams)
    (radii : Option (List (Option ℚ))) (hdt : 0 < p.dt)
    (hvmax : 0 < p.vmax_cap) (hsqrt : ∀ x, 0 ≤ x → 0 ≤ sqrtFn x) :
    ∀ profile idx st, 0 ≤ st.v →
      st.sAcc ≤ (outerLoop sqrtFn p radii profile idx st).sAcc ∧
      st.t ≤ (outerLoop sqrtFn p radii profile idx st).t ∧
      0 ≤ (outerLoop sqrtFn p radii profile idx st).v ∧
      st.vmax ≤ (outerLoop sqrtFn p radii profile idx st).vmax := by
  intro profile
  induction profile with
  | nil =>
    intro idx st hv
    simp only [outerLoop]
    exact ⟨le_refl _, le_refl _, hv, le_refl _⟩
  | cons e rest ih =>
    intro idx st hv
    have hcap : 0 ≤ effCap p (capAt sqrtFn p radii idx) :=
      capAt_effCap_nonneg sqrtFn p radii idx hvmax hsqrt
    obtain ⟨hi1, hi2, hi3, hi4⟩ := innerLoop_bounds p (capAt sqrtFn p radii idx)
      e.1 e.2.1 e.2.2 hdt hcap (innerFuel e.1) 0 st hv
    simp only [outerLoop]
    split_ifs with hbreak
    · exact ⟨hi1, hi2, hi3, hi4⟩
    · obtain ⟨hr1, hr2, hr3, hr4⟩ := ih (idx + 1)
        (innerLoop p (capAt sqrtFn p radii idx) e.1 e.2.1 e.2.2 (innerFuel e.1) 0 st).1
        hi3
      exact ⟨le_trans hi1 hr1, le_trans hi2 hr2, hr3, le_trans hi4 hr4⟩

/-- Helper: when the very first sub-step of an entry stalls, the inner loop
returns the incoming state with velocity forced to zero and reports the
stall. -/
lemma innerLoop_stall_first (p : PhysicalParams) (cap : Option ℚ)
    (ds slope_sin slope_cos : ℚ) (fuel : ℕ) (st : SimState)
    (h1 : 0 < ds) (h2 : 0 < st.v)
    (h3 : (step_velocity st.v slope_sin slope_cos p p.dt cap).1 * p.dt ≤
      1/1000000) :
    innerLoop p cap ds slope_sin slope_cos (fuel + 1) 0 st =
      ({ st with v := 0 }, true) := by
  simp only [innerLoop]
  rw [if_pos ⟨h1, h2⟩, if_pos h3]

/-- Helper: with positive stop and step, `arange` is non-empty. -/
lemma arange_ne_nil (stop step : ℚ) (h0 : 0 < stop) (hs : 0 < step) :
    arange stop step ≠ [] := by
  unfold arange
  rw [Ne, List.map_eq_nil, List.range_eq_nil]
  have hpos : (0 : ℤ) < ⌈stop / step⌉ := Int.ceil_pos.mpr (div_pos h0 hs)
  omega

/-- Helper: with a positive step, every member of `arange stop step` is
strictly below `stop`. -/
lemma arange_mem_lt (stop step x : ℚ) (hs : 0 < step)
    (hx : x ∈ arange stop step) : x < stop := by
  unfold arange at hx
  obtain ⟨i, hi, rfl⟩ := List.mem_map.mp hx
  have hi2 : (i : ℤ) < ⌈stop / step⌉ := Int.lt_toNat.mp (List.mem_range.mp hi)
  have hi3 : (i : ℚ) < stop / step := by
    by_contra hle
    push_neg at hle
    have : ⌈stop / step⌉ ≤ (i : ℤ) := Int.ceil_le.mpr (by exact_mod_cast hle)
    omega
  calc (i : ℚ) * step < (stop / step) * step :=
        mul_lt_mul_of_pos_right hi3 hs
    _ = stop := div_mul_cancel₀ stop (ne_of_gt hs)

/-- Helper: any record emitted for one edge clamps the coasted distance to
the recorded original edge length. -/
lemma process_edge_coast_le (sqrtFn : ℚ → ℚ) (hypot : ℚ → ℚ → ℚ)
    (substringFn : LineString → ℚ → ℚ → LineString) (step_m v0 : ℚ)
    (p : PhysicalParams) (edge : Edge) (res : EdgeResult)
    (h : process_edge sqrtFn hypot substringFn step_m v0 p edge = some res) :
    res.coast_distance_m ≤ res.length_m := by
  unfold process_edge at h
  cases hg : edge.geometry with
  | none => rw [hg] at h; exact absurd h (by simp)
  | some geom =>
    rw [hg] at h
    dsimp only at h
    split_ifs at h with hlen
    cases he : edge_profile_radii hypot sqrtFn geom edge.elevations step_m with
    | error msg => rw [he] at h; exact absurd h (by simp)
    | ok pr =>
      rw [he] at h
      dsimp only at h
      split_ifs at h with hemp
      injection h with h
      rw [← h]
      exact min_le_right _ _

/-- Helper: the head of a non-empty list with a fallback is a member. -/
lemma headD_mem {α : Type} (l : List α) (d : α) (h : l ≠ []) :
    l.headD d ∈ l := by
  cases l with
  | nil => exact absurd rfl h
  | cons a t => exact List.mem_cons_self a t

/-- Helper: concrete densification of the witness line. -/
lemma densify_lineW : densify_linestring lineW 5 = [(0, 0), (2, 0)] := by
  have hceil : (⌈(2:ℚ)/5⌉ : ℤ) = 1 := by
    rw [Int.ceil_eq_iff]
    norm_num
  have ha : arange (max 0 lineW.length) (max 5 (1/1000000)) = [0] := by
    rw [show max 0 lineW.length = 2 from by norm_num [lineW, max_def],
      show max (5:ℚ) (1/1000000) = 5 from by norm_num [max_def]]
    unfold arange
    rw [hceil]
    rw [show ((1:ℤ)).toNat = 1 from rfl, show List.range 1 = [0] from rfl,
      List.map_cons, List.map_nil]
    norm_num
  unfold densify_linestring
  rw [if_neg (by norm_num [lineW])]
  dsimp only
  rw [ha]
  rw [show ([0] : List ℚ).getLast? = some 0 from rfl]
  dsimp only
  rw [if_pos (by norm_num [lineW])]
  rfl

/-- Helper: concrete profile of the witness line (the zero stand-in for the
Euclidean norm makes the single sub-segment degenerate). -/
lemma build_profile_W :
    build_profile_from_points hypW sqW [(0, 0), (2, 0)] [some 0, some 0] =
      Except.ok [(0, 0, 1)] := by
  unfold build_profile_from_points
  rw [if_neg (by norm_num), if_neg (by norm_num)]
  dsimp only
  rw [show ([(0, 0), (2, 0)] : List (ℚ × ℚ)).length - 1 = 1 from rfl]
  rw [show List.range 1 = [0] from rfl]
  rw [List.map_cons, List.map_nil]
  rw [if_pos (by norm_num [hypW])]

/-- Helper: concrete radii of the witness line (two points, all absent). -/
lemma radii_W : compute_segment_radii hypW [(0, 0), (2, 0)] = [none] := rfl

/-- Helper: concrete profile and radii of the witness edge. -/
lemma edge_profile_radii_W :
    edge_profile_radii hypW sqW lineW (some [some 0, some 0]) 5 =
      Except.ok ([(0, 0, 1)], [none]) := by
  unfold edge_profile_radii build_profile_and_radii
  rw [densify_lineW]
  dsimp only
  rw [build_profile_W]
  dsimp only
  rw [radii_W]

/-- Helper: the witness edge survives all skip conditions of the edge
loop. -/
lemma process_edge_W_isSome :
    (process_edge sqW hypW subW 5 1 pW edgeW).isSome = true := by
  unfold process_edge
  rw [show edgeW.geometry = some lineW from rfl]
  dsimp only
  rw [if_neg (by norm_num [lineW])]
  rw [show edgeW.elevations = some [some 0, some 0] from rfl,
    edge_profile_radii_W]
  dsimp only
  rw [if_neg (by simp)]
  rfl

/-- Helper: processing the witness edge list yields a non-empty result
collection. -/
lemma process_edges_W_ne_nil :
    process_edges sqW hypW subW [edgeW] 5 1 pW ≠ [] := by
  unfold process_edges
  obtain ⟨r0, hr0⟩ := Option.isSome_iff_exists.mp process_edge_W_isSome
  simp [List.filterMap_cons, hr0]

/-- C1 (counterexample): at valid parameters, with input velocity 0 and a
negative supplied local cap, `step_velocity` returns the negative cap, so the
claim quantified over every optional local cap value is false. -/
theorem c1_counterexample :
    pC1.Valid ∧ (0:ℚ) ≤ 0 ∧
      (step_velocity 0 0 0 pC1 1 (some (-1))).1 < 0 := by
  refine ⟨?_, le_refl 0, ?_⟩
  · unfold PhysicalParams.Valid pC1
    norm_num
  · unfold step_velocity effCap pC1
    norm_num

/-- C1 (amended): for valid parameters, any input velocity, any slope pair and
any optional local cap that is non-negative when supplied, `step_velocity`
never returns a negative velocity. -/
theorem c1_step_nonneg (p : PhysicalParams) (v slope_sin slope_cos dt : ℚ)
    (v_cap_local : Option ℚ) (hp : p.Valid) (hv : 0 ≤ v) (hdt : 0 < dt)
    (hloc : ∀ c, v_cap_local = some c → 0 ≤ c) :
    0 ≤ (step_velocity v slope_sin slope_cos p dt v_cap_local).1 :=
  step_velocity_nonneg v slope_sin slope_cos p dt v_cap_local
    (effCap_nonneg p v_cap_local hp.2.2.2.2.2.2.2 hloc)

/-- Witness for C1 (amended) at concrete inputs. -/
theorem c1_witness :
    0 ≤ (step_velocity 2 0 1 pC1 1 (some (1/2))).1 :=
  c1_step_nonneg pC1 2 0 1 1 (some (1/2))
    (by unfold PhysicalParams.Valid pC1; norm_num) (by norm_num)
    (by norm_num) (by intro c hc; injection hc with h; rw [← h]; norm_num)

/-- C2 (counterexample): at valid parameters with `crr = 0`, `cda = 0`,
`sinθ = 0` and input velocity 2 exceeding the global cap 1, the velocity
returned by `step_velocity` is the cap, not the input velocity, so the claim
is false for velocities above the effective cap. -/
theorem c2_counterexample :
    pC1.Valid ∧ pC1.crr = 0 ∧ pC1.cda = 0 ∧ (0:ℚ) ≤ 2 ∧
      (step_velocity 2 0 1 pC1 1 none).1 ≠ 2 := by
  refine ⟨?_, rfl, rfl, by norm_num, ?_⟩
  · unfold PhysicalParams.Valid pC1
    norm_num
  · unfold step_velocity effCap pC1
    norm_num

/-- C2 (amended): for valid parameters with `crr = 0` and `cda = 0`, slope
`sinθ = 0`, and a non-negative input velocity that does not exceed the
effective cap, `step_velocity` returns acceleration exactly 0 and leaves the
velocity unchanged. -/
theorem c2_flat_frictionless (p : PhysicalParams) (v slope_cos dt : ℚ)
    (v_cap_local : Option ℚ) (hp : p.Valid) (hcrr : p.crr = 0)
    (hcda : p.cda = 0) (hv : 0 ≤ v) (hdt : 0 < dt)
    (hcap : v ≤ effCap p v_cap_local) :
    step_velocity v 0 slope_cos p dt v_cap_local = (v, 0) := by
  unfold step_velocity
  have ha : -p.g * 0 - p.crr * p.g * slope_cos
      - (p.rho * p.cda / (2 * p.mass)) * v * v = 0 := by
    rw [hcrr, hcda]; ring
  dsimp only
  rw [ha]
  have hmax : max 0 (v + 0 * dt) = v := by
    rw [zero_mul, add_zero]; exact max_eq_right hv
  rw [hmax, if_neg (not_lt.mpr hcap)]

/-- Witness for C2 (amended) at concrete inputs. -/
theorem c2_witness :
    step_velocity (1/2) 0 1 pC1 1 none = (1/2, 0) :=
  c2_flat_frictionless pC1 (1/2) 1 1 none
    (by unfold PhysicalParams.Valid pC1; norm_num) rfl rfl (by norm_num)
    (by norm_num) (by unfold effCap pC1; norm_num)

/-- C6: the velocity returned by `step_velocity` never exceeds
`min vmax_cap localCap` when a local cap is supplied, and never exceeds
`vmax_cap` when none is supplied. -/
theorem c6_cap_respected (p : PhysicalParams) (v slope_sin slope_cos dt c : ℚ)
    (hp : p.Valid) (hdt : 0 < dt) :
    (step_velocity v slope_sin slope_cos p dt (some c)).1 ≤
        min p.vmax_cap c ∧
      (step_velocity v slope_sin slope_cos p dt none).1 ≤ p.vmax_cap :=
  ⟨step_velocity_le_effCap v slope_sin slope_cos p dt (some c),
    step_velocity_le_effCap v slope_sin slope_cos p dt none⟩

/-- Witness for C6 at concrete inputs. -/
theorem c6_witness :
    (step_velocity 3 (-1) 0 pC1 1 (some 2)).1 ≤ min pC1.vmax_cap 2 ∧
      (step_velocity 3 (-1) 0 pC1 1 none).1 ≤ pC1.vmax_cap :=
  c6_cap_respected pC1 3 (-1) 0 1 2
    (by unfold PhysicalParams.Valid pC1; norm_num) (by norm_num)

/-- C4: for every profile, every non-negative initial velocity, valid
parameters and any radii sequence, `simulate_segment` returns a non-negative
coasted distance, a non-negative elapsed time (despite the backward overshoot
correction), a non-negative exit velocity, and a peak velocity at least the
initial velocity. -/
theorem c4_outcome_bounds (sqrtFn : ℚ → ℚ) (profile : List (ℚ × ℚ × ℚ))
    (v0 : ℚ) (p : PhysicalParams) (radii : Option (List (Option ℚ)))
    (hp : p.Valid) (hsqrt : ∀ x, 0 ≤ x → 0 ≤ sqrtFn x) (hv0 : 0 ≤ v0) :
    0 ≤ (simulate_segment sqrtFn profile v0 p radii).1 ∧
    0 ≤ (simulate_segment sqrtFn profile v0 p radii).2.1 ∧
    0 ≤ (simulate_segment sqrtFn profile v0 p radii).2.2.1 ∧
    v0 ≤ (simulate_segment sqrtFn profile v0 p radii).2.2.2 := by
  obtain ⟨h1, h2, h3, h4⟩ := outerLoop_bounds sqrtFn p radii hp.dt_pos
    hp.vmax_pos hsqrt profile 0 { v := v0, t := 0, sAcc := 0, vmax := v0 } hv0
  exact ⟨h1, h2, h3, h4⟩

/-- Witness for C4 at concrete inputs. -/
theorem c4_witness :
    0 ≤ (simulate_segment sqW [(1, 0, 1)] (1/2) pW none).1 ∧
    0 ≤ (simulate_segment sqW [(1, 0, 1)] (1/2) pW none).2.1 ∧
    0 ≤ (simulate_segment sqW [(1, 0, 1)] (1/2) pW none).2.2.1 ∧
    (1/2 : ℚ) ≤ (simulate_segment sqW [(1, 0, 1)] (1/2) pW none).2.2.2 :=
  c4_outcome_bounds sqW [(1, 0, 1)] (1/2) pW none
    (by unfold PhysicalParams.Valid pW; norm_num)
    (fun x hx => le_refl 0) (by norm_num)

/-- C5: whenever the inner sub-stepping loop of `simulate_segment` ends an
entry through the stall branch (incremental distance at most `1e-6`), the
velocity has been forced to 0 and the whole simulation returns that state
at once: no later profile entry contributes to distance, time, exit or peak
velocity. -/
theorem c5_stall_terminates (sqrtFn : ℚ → ℚ) (p : PhysicalParams)
    (radii : Option (List (Option ℚ))) (ds slope_sin slope_cos : ℚ)
    (rest : List (ℚ × ℚ × ℚ)) (idx : ℕ) (st : SimState)
    (hstall : (innerLoop p (capAt sqrtFn p radii idx) ds slope_sin slope_cos
      (innerFuel ds) 0 st).2 = true) :
    outerLoop sqrtFn p radii ((ds, slope_sin, slope_cos) :: rest) idx st =
      (innerLoop p (capAt sqrtFn p radii idx) ds slope_sin slope_cos
        (innerFuel ds) 0 st).1 ∧
    (innerLoop p (capAt sqrtFn p radii idx) ds slope_sin slope_cos
      (innerFuel ds) 0 st).1.v = 0 := by
  have hv := innerLoop_stalled p (capAt sqrtFn p radii idx) ds slope_sin
    slope_cos (innerFuel ds) 0 st hstall
  refine ⟨?_, hv⟩
  simp only [outerLoop]
  rw [if_pos (le_of_eq hv)]

/-- Witness for C5 at concrete inputs: with unit rolling resistance the
first sub-step of the first entry stalls. -/
theorem c5_witness :
    (innerLoop pW (capAt sqW pW none 0) 1 0 1 (innerFuel 1) 0 stW).2 = true ∧
    (outerLoop sqW pW none [(1, 0, 1), (5, 0, 1)] 0 stW =
      (innerLoop pW (capAt sqW pW none 0) 1 0 1 (innerFuel 1) 0 stW).1 ∧
     (innerLoop pW (capAt sqW pW none 0) 1 0 1 (innerFuel 1) 0 stW).1.v = 0) := by
  have hstall : (innerLoop pW (capAt sqW pW none 0) 1 0 1
      (innerFuel 1) 0 stW).2 = true := by
    rw [show innerFuel 1 = (⌈(1:ℚ) * 1000000⌉).toNat + 1 + 1 from rfl]
    rw [innerLoop_stall_first pW (capAt sqW pW none 0) 1 0 1
      ((⌈(1:ℚ) * 1000000⌉).toNat + 1) stW (by norm_num)
      (by norm_num [stW])
      (by norm_num [step_velocity, effCap, capAt, pW, stW, max_def, min_def])]
  exact ⟨hstall, c5_stall_terminates sqW pW none 1 0 1 [(5, 0, 1)] 0 stW hstall⟩

/-- C7: for every line and positive step, `densify_linestring` ends exactly
at the endpoint of the line; a zero-length line yields a degenerate
two-point sequence at the same location; a positive-length line yields at
least two points.  The endpoint hypotheses record the contract of the
external interpolation collaborator (`line.interpolate` at the full length
is the last coordinate). -/
theorem c7_densify_endpoints (line : LineString) (step_m : ℚ) (ep : ℚ × ℚ)
    (hstep : 0 < step_m) (hep : line.coords.getLast? = some ep)
    (hinterp : line.interpolate line.length = ep) :
    (densify_linestring line step_m).getLast? = some ep ∧
    (line.length ≤ 0 → line.coords.head? = some ep →
      densify_linestring line step_m = [ep, ep]) ∧
    (0 < line.length → 2 ≤ (densify_linestring line step_m).length) := by
  by_cases h0 : line.length ≤ 0
  · unfold densify_linestring
    rw [if_pos h0]
    cases hcs : line.coords with
    | nil => rw [hcs] at hep; exact absurd hep (by simp)
    | cons c rest =>
      rw [hcs] at hep
      have hlast : rest.getLastD c = ep := by
        cases rest with
        | nil => simpa using hep
        | cons d t =>
          rw [List.getLast?_cons_cons] at hep
          rw [List.getLastD_eq_getLast?, hep]
          rfl
      refine ⟨?_, ?_, fun hpos => absurd hpos (not_lt.mpr h0)⟩
      · show ([c, rest.getLastD c] : List (ℚ × ℚ)).getLast? = some ep
        rw [show ([c, rest.getLastD c] : List (ℚ × ℚ)).getLast? =
          some (rest.getLastD c) from rfl, hlast]
      · intro _ hhead
        have hc : c = ep := by simpa using hhead
        show ([c, rest.getLastD c] : List (ℚ × ℚ)) = [ep, ep]
        rw [hlast, hc]
  · push_neg at h0
    unfold densify_linestring
    rw [if_neg (not_le.mpr h0)]
    have hmax : max 0 line.length = line.length := max_eq_right (le_of_lt h0)
    have hstep2 : (0:ℚ) < max step_m (1/1000000) :=
      lt_of_lt_of_le hstep (le_max_left _ _)
    have hne : arange (max 0 line.length) (max step_m (1/1000000)) ≠ [] := by
      rw [hmax]
      exact arange_ne_nil line.length (max step_m (1/1000000)) h0 hstep2
    obtain ⟨dl, hdl⟩ := Option.ne_none_iff_exists'.mp
      (mt List.getLast?_eq_none_iff.mp hne)
    have hdlmem : dl ∈ arange (max 0 line.length) (max step_m (1/1000000)) :=
      List.mem_of_mem_getLast? (by rw [hdl]; rfl)
    have hdllt : dl < line.length := by
      have := arange_mem_lt (max 0 line.length) (max step_m (1/1000000)) dl
        hstep2 hdlmem
      rwa [hmax] at this
    dsimp only
    rw [hdl]
    dsimp only
    rw [if_pos hdllt, List.map_append]
    constructor
    · rw [show List.map line.interpolate [line.length] =
        [line.interpolate line.length] from rfl, List.getLast?_concat, hinterp]
    refine ⟨fun habs => absurd habs (not_le.mpr h0), fun _ => ?_⟩
    have hlen : 1 ≤ (arange (max 0 line.length) (max step_m (1/1000000))).length :=
      Nat.one_le_iff_ne_zero.mpr (mt List.length_eq_zero.mp hne)
    simp only [List.length_append, List.length_map, List.length_cons,
      List.length_nil]
    omega

/-- C8: `compute_segment_radii` returns one entry per segment
(`max (0, N-1)` entries for `N` points, which is natural subtraction here),
with the first and last entries always absent, everything absent for fewer
than 3 points, and every present entry a strictly positive radius. -/
theorem c8_radii_shape (hypot : ℚ → ℚ → ℚ) (points : List (ℚ × ℚ)) :
    (compute_segment_radii hypot points).length = points.length - 1 ∧
    (points.length < 3 →
      compute_segment_radii hypot points =
        List.replicate (points.length - 1) none) ∧
    (2 ≤ points.length →
      (compute_segment_radii hypot points).head? = some none ∧
      (compute_segment_radii hypot points).getLast? = some none) ∧
    (∀ i v, (compute_segment_radii hypot points).get? i = some (some v) →
      0 < v) := by
  unfold compute_segment_radii
  dsimp only
  by_cases h3 : points.length < 3
  · rw [if_pos h3]
    refine ⟨List.length_replicate _ _, fun _ => rfl, ?_, ?_⟩
    · intro h2
      have h1 : points.length - 1 = 1 := by omega
      rw [h1]
      exact ⟨rfl, rfl⟩
    · intro i v hv
      have := List.eq_of_mem_replicate (List.get?_mem hv)
      exact absurd this (by simp)
  · rw [if_neg h3]
    push_neg at h3
    have hn1 : points.length - 1 = (points.length - 2) + 1 := by omega
    refine ⟨by simp, fun hlt => absurd hlt (by omega), ?_, ?_⟩
    · intro _
      constructor
      · rw [hn1, List.range_succ_eq_map, List.map_cons, List.head?_cons,
          if_pos (Or.inl rfl)]
      · rw [hn1, List.range_succ, List.map_append, List.map_cons, List.map_nil,
          List.getLast?_concat, if_pos (Or.inr rfl)]
    · intro i v hv
      have hmem := List.get?_mem hv
      obtain ⟨j, hj, hfj⟩ := List.mem_map.mp hmem
      split_ifs at hfj with h1 h2
      push_neg at h2
      obtain ⟨hg1, hg2, hg3, hg4⟩ := h2
      injection hfj with hfj
      rw [← hfj]
      apply div_pos
      · exact mul_pos (mul_pos (by linarith) (by linarith)) (by linarith)
      · linarith

/-- C9 (counterexample): truncating a zero-length three-coordinate line at a
distance at least its full length does not return the original geometry
unchanged; the code takes the degenerate branch and rebuilds a two-point
geometry, whose coordinate sequence differs from the original. -/
theorem c9_counterexample :
    lineZ.length ≤ (1:ℚ) ∧
      (cut_linestring_at_length subW lineZ 1).coords ≠ lineZ.coords := by
  constructor
  · norm_num [lineZ]
  · unfold cut_linestring_at_length subW lineZ
    dsimp only
    rw [if_pos (by norm_num [min_def, max_def])]
    intro h
    have := congrArg List.length h
    simp at this

/-- C9 (amended): truncating at a distance at most 0 yields the degenerate
zero-length geometry at the start point, and truncating a line of positive
length at a distance at least its full length returns the original geometry
unchanged. -/
theorem c9_cut_clamped (substringFn : LineString → ℚ → ℚ → LineString)
    (line : LineString) (d : ℚ) (c0 : ℚ × ℚ)
    (hc0 : line.coords.head? = some c0) :
    (d ≤ 0 →
      cut_linestring_at_length substringFn line d =
        { coords := [c0, c0], length := 0, interpolate := fun _ => c0 }) ∧
    (0 < line.length → line.length ≤ d →
      cut_linestring_at_length substringFn line d = line) := by
  have hstart : line.coords.getD 0 (0, 0) = c0 := by
    cases hcs : line.coords with
    | nil => rw [hcs] at hc0; exact absurd hc0 (by simp)
    | cons a t => rw [hcs] at hc0; simpa using hc0
  constructor
  · intro hd
    unfold cut_linestring_at_length
    dsimp only
    have hcond : min (max 0 d) line.length ≤ 0 := by
      rw [max_eq_left hd]
      exact min_le_left 0 line.length
    rw [if_pos hcond]
    simp only [hstart]
  · intro hpos hd
    unfold cut_linestring_at_length
    dsimp only
    have h2 : min (max 0 d) line.length = line.length := by
      rw [max_eq_right (le_trans (le_of_lt hpos) hd)]
      exact min_eq_right hd
    rw [h2, if_neg (not_le.mpr hpos), if_pos (le_refl line.length)]

/-- C10: `build_profile_from_points` raises exactly when the point and
elevation sequences have different lengths, and for matched lengths with
fewer than two points it returns the empty profile without raising. -/
theorem c10_build_profile_error_iff (hypot : ℚ → ℚ → ℚ) (sqrtFn : ℚ → ℚ)
    (points : List (ℚ × ℚ)) (elevations : List (Option ℚ)) :
    ((build_profile_from_points hypot sqrtFn points elevations).toOption =
        none ↔ points.length ≠ elevations.length) ∧
    (points.length = elevations.length → points.length < 2 →
      build_profile_from_points hypot sqrtFn points elevations =
        Except.ok []) := by
  unfold build_profile_from_points
  split_ifs with h1 h2
  · exact ⟨iff_of_true rfl h1, fun he => absurd he h1⟩
  · exact ⟨iff_of_false (by simp [Except.toOption]) (by simpa using h1),
      fun _ _ => rfl⟩
  · exact ⟨iff_of_false (by simp [Except.toOption]) (by simpa using h1),
      fun _ hlt => absurd hlt h2⟩

/-- C3: the total distance returned by `simulate_segment` is at most the sum
of the profile entry lengths, and every record emitted by `process_edges`
clamps the recorded coasted distance to the original geometric edge
length. -/
theorem c3_distance_clamped (sqrtFn : ℚ → ℚ) (profile : List (ℚ × ℚ × ℚ))
    (v0 : ℚ) (p : PhysicalParams) (radii : Option (List (Option ℚ)))
    (hp : p.Valid) (hv0 : 0 ≤ v0) (hds : ∀ e ∈ profile, 0 ≤ e.1) :
    (simulate_segment sqrtFn profile v0 p radii).1 ≤
      (profile.map fun e => e.1).sum ∧
    ∀ (hypot : ℚ → ℚ → ℚ) (substringFn : LineString → ℚ → ℚ → LineString)
      (edges : List Edge) (step_m w0 : ℚ) (q : PhysicalParams),
      ∀ res ∈ process_edges sqrtFn hypot substringFn edges step_m w0 q,
        res.coast_distance_m ≤ res.length_m := by
  constructor
  · have h := outerLoop_sAcc_le sqrtFn p radii profile 0
      { v := v0, t := 0, sAcc := 0, vmax := v0 } hds
    unfold simulate_segment
    dsimp only
    simpa using h
  · intro hypot substringFn edges step_m w0 q res hres
    unfold process_edges at hres
    obtain ⟨edge, hedge, hpe⟩ := List.mem_filterMap.mp hres
    exact process_edge_coast_le sqrtFn hypot substringFn step_m w0 q edge
      res hpe

/-- Witness for C3 at concrete inputs. -/
theorem c3_witness :
    (simulate_segment sqW [(1, 0, 1)] (1/2) pW none).1 ≤
      (([(1, 0, 1)] : List (ℚ × ℚ × ℚ)).map fun e => e.1).sum ∧
    ((process_edges sqW hypW subW [edgeW] 5 1 pW).headD
        resDefault).coast_distance_m ≤
      ((process_edges sqW hypW subW [edgeW] 5 1 pW).headD
        resDefault).length_m := by
  have h := c3_distance_clamped sqW [(1, 0, 1)] (1/2) pW none
    (by unfold PhysicalParams.Valid pW; norm_num) (by norm_num)
    (by intro e he; rw [List.mem_singleton.mp he]; norm_num)
  exact ⟨h.1, h.2 hypW subW [edgeW] 5 1 pW _
    (headD_mem _ resDefault process_edges_W_ne_nil)⟩

/-- Witness for C7 at concrete inputs. -/
theorem c7_witness :
    (densify_linestring lineW 1).getLast? = some (2, 0) ∧
    (lineW.length ≤ 0 → lineW.coords.head? = some (2, 0) →
      densify_linestring lineW 1 = [(2, 0), (2, 0)]) ∧
    (0 < lineW.length → 2 ≤ (densify_linestring lineW 1).length) :=
  c7_densify_endpoints lineW 1 (2, 0) (by norm_num) rfl rfl

/-- Witness for C8 at concrete inputs. -/
theorem c8_witness :
    (compute_segment_radii hypW pts8).length = 3 ∧
    (compute_segment_radii hypW pts8).head? = some none ∧
    (compute_segment_radii hypW pts8).getLast? = some none := by
  have h := c8_radii_shape hypW pts8
  refine ⟨?_, (h.2.2.1 (by norm_num [pts8])).1, (h.2.2.1 (by norm_num [pts8])).2⟩
  rw [h.1]
  norm_num [pts8]

/-- Witness for C9 (amended) at concrete inputs. -/
theorem c9_witness :
    cut_linestring_at_length subW lineW (-1) =
      { coords := [(0, 0), (0, 0)], length := 0,
        interpolate := fun _ => ((0 : ℚ), (0 : ℚ)) } ∧
    cut_linestring_at_length subW lineW 3 = lineW :=
  ⟨(c9_cut_clamped subW lineW (-1) (0, 0) rfl).1 (by norm_num),
   (c9_cut_clamped subW lineW 3 (0, 0) rfl).2 (by norm_num [lineW])
     (by norm_num [lineW])⟩

/-- Witness for C10 at concrete inputs. -/
theorem c10_witness :
    (build_profile_from_points hypW sqW [] [some 1]).toOption = none ∧
    build_profile_from_points hypW sqW [(0, 0)] [some 1] = Except.ok [] :=
  ⟨(c10_build_profile_error_iff hypW sqW [] [some 1]).1.mpr (by norm_num),
   (c10_build_profile_error_iff hypW sqW [(0, 0)] [some 1]).2 (by norm_num)
     (by norm_num)⟩
